import Mathlib

/-!
Verification of the request-forwarding and caching core of a Clash-of-Clans
API proxy (`server.js` and an earlier in-memory variant of the same file).

The JavaScript source is embedded shallowly:

* JS strings are `List Char`;
* `encodeURIComponent` is modelled faithfully (unreserved characters kept,
  everything else percent-encoded through its UTF-8 bytes, uppercase hex);
* the cache (NodeCache / Redis, accessed through `getCache` / `setCache`)
  is an association list with the newest entry in front;
* the upstream (`fetchFn` / `fetchWithTimeout`) is an oracle mapping the
  attempt number to either a transport failure (the promise rejects: timeout,
  connection error) or a response carrying an HTTP status and a body text;
* `JSON.parse` is a host builtin, modelled as a parameter
  `parse : JStr → Option Json` (`none` = the parse throws).

All definitions are executable, so concrete runs evaluate by `decide`/`rfl`.
-/

namespace CoC

/-- JS strings, modelled as lists of characters. -/
abbrev JStr := List Char

/-- Uppercase hexadecimal digit, as produced by `encodeURIComponent`. -/
def hexDigit (n : Nat) : Char :=
  if n < 10 then Char.ofNat (48 + n) else Char.ofNat (55 + n)

/-- The UTF-8 bytes of a character (as `Nat`s below 256). -/
def utf8Bytes (c : Char) : List Nat :=
  let n := c.toNat
  if n < 128 then [n]
  else if n < 2048 then [192 + n / 64, 128 + n % 64]
  else if n < 65536 then [224 + n / 4096, 128 + (n / 64) % 64, 128 + n % 64]
  else [240 + n / 262144, 128 + (n / 4096) % 64, 128 + (n / 64) % 64, 128 + n % 64]

/-- Percent-encode one byte: `%XY` with uppercase hex. -/
def pctByte (b : Nat) : List Char := ['%', hexDigit (b / 16), hexDigit (b % 16)]

/-- Characters `encodeURIComponent` leaves unescaped:
`A–Z a–z 0–9 - _ . ! ~ * ( )` and the apostrophe. -/
def uriUnreserved (c : Char) : Bool :=
  (65 ≤ c.toNat && c.toNat ≤ 90) || (97 ≤ c.toNat && c.toNat ≤ 122) ||
  (48 ≤ c.toNat && c.toNat ≤ 57) ||
  c == '-' || c == '_' || c == '.' || c == '!' || c == '~' || c == '*' ||
  c == '(' || c == ')' || c.toNat == 39

/-- Action of `encodeURIComponent` on one character. -/
def encodeURIComponentChar (c : Char) : List Char :=
  if uriUnreserved c then [c] else (utf8Bytes c).flatMap pctByte

/-- The JS builtin `encodeURIComponent`, restricted to well-formed strings. -/
def encodeURIComponent (s : JStr) : JStr := s.flatMap encodeURIComponentChar

/-- The string `"%23"`, the percent-encoding of the tag marker `#`. -/
def pct23 : JStr := ['%', '2', '3']

/-- JS `s.startsWith(p)` (here `jsStartsWith s p`). -/
def jsStartsWith : JStr → JStr → Bool
  | _, [] => true
  | [], _ :: _ => false
  | c :: s, p :: ps => decide (c = p) && jsStartsWith s ps

/-- Function `encodeTag` from `server.js` (lines 96–101): return `""` for a falsy
input, return inputs already starting with `"%23"` verbatim, otherwise
prefix `#` when missing and `encodeURIComponent` the result. -/
def encodeTag (raw : JStr) : JStr :=
  if raw = [] then []
  else if jsStartsWith raw pct23 then raw
  else
    let withHash := if jsStartsWith raw ['#'] then raw else '#' :: raw
    encodeURIComponent withHash

/-- Decoded JSON values (upstream bodies are opaque trees; numbers are
modelled as integers, which the claims never inspect). -/
inductive Json where
  | null
  | bool (b : Bool)
  | num (n : Int)
  | str (s : JStr)
  | arr (elems : List Json)
  | obj (fields : List (JStr × Json))

/-- The two HTTP methods the proxy forwards. -/
inductive Method where
  | GET
  | POST
deriving DecidableEq

/-- Outcome of one `fetchWithTimeout` attempt: either the promise rejects
(timeout abort, connection error, …) with an error message, or a response
arrives carrying an HTTP status and a body text. -/
inductive AttemptResult where
  | failure (msg : JStr)
  | success (status : Nat) (text : JStr)
deriving DecidableEq

/-- What `cocFetch` stores in the cache: `{ status, body }`. -/
structure CacheEntry where
  status : Nat
  body : Json

/-- The cache (NodeCache or Redis behind `getCache`/`setCache`), as an
association list; the newest write for a key shadows older ones. -/
abbrev Cache := List (JStr × CacheEntry)

/-- Function `getCache` from `server.js` (lines 69–77): falsy keys give `null`,
otherwise the stored value or `null`. -/
def getCache (cache : Cache) (key : JStr) : Option CacheEntry :=
  if key = [] then none
  else
    match cache.find? (fun e => decide (e.1 = key)) with
    | some e => some e.2
    | none => none

/-- Function `setCache` from `server.js` (lines 78–85): falsy keys are ignored,
otherwise the value is stored under the key (overwriting). -/
def setCache (cache : Cache) (key : JStr) (v : CacheEntry) : Cache :=
  if key = [] then cache else (key, v) :: cache

/-- The retry loop of `cocFetch` (lines 146–163): attempts are numbered
from 1; the loop stops at the first attempt that yields a response
(whatever its status) and otherwise records the error and continues.
`remaining` counts the attempts still allowed, so the call shape is
`runAttempts upstream maxAttempts 1 none`. The result is either the first
response or the last error once the budget is exhausted. -/
def runAttempts (upstream : Nat → AttemptResult) :
    Nat → Nat → Option JStr → (Nat × JStr) ⊕ Option JStr
  | 0, _, lastErr => Sum.inr lastErr
  | remaining + 1, attempt, _ =>
    match upstream attempt with
    | .success s t => Sum.inl (s, t)
    | .failure m => runAttempts upstream remaining (attempt + 1) (some m)

/-- The body-parsing step of `cocFetch` (lines 169–175):
`parsed = text ? JSON.parse(text) : {}`, with a parse failure caught and
replaced by `{ raw: text }`. -/
def jsonOfText (parse : JStr → Option Json) (text : JStr) : Json :=
  if text = [] then Json.obj []
  else
    match parse text with
    | some j => j
    | none => Json.obj [("raw".toList, Json.str text)]

/-- The test `shouldCache = method === "GET" && cacheKey` (line 131): true exactly
for GET with a truthy (present, non-empty) cache key. -/
def shouldCacheB (method : Method) (cacheKey : Option JStr) : Bool :=
  method == Method.GET &&
    (match cacheKey with
     | some k => !k.isEmpty
     | none => false)

/-- The cache consultation of `cocFetch` (lines 132–138): only when
`shouldCache`, look the key up. -/
def cacheLookup (cache : Cache) (method : Method) (cacheKey : Option JStr) :
    Option CacheEntry :=
  if shouldCacheB method cacheKey then
    match cacheKey with
    | some k => getCache cache k
    | none => none
  else none

/-- What the client receives: `res.status(status).json(body)`. -/
structure ClientResponse where
  status : Nat
  body : Json

/-- Function `cocFetch` from `server.js` (lines 126–186), for a fixed request.

The outbound URL, headers and serialized body shape only the upstream
request, which the oracle `upstream` abstracts, so they do not appear here;
`parse` stands for the `JSON.parse` builtin. On a cache hit the cached
status and body are replayed; otherwise the retry loop runs, and if no
attempt produced a response the thrown error is caught by the enclosing
`try` and becomes `500 { error: message }`; a response is parsed, stored
into the cache whenever `shouldCache` (no status check in the source), and
forwarded verbatim. Returns the client response and the new cache state. -/
def cocFetch (parse : JStr → Option Json) (upstream : Nat → AttemptResult)
    (maxAttempts : Nat) (method : Method) (cacheKey : Option JStr)
    (cache : Cache) : ClientResponse × Cache :=
  match cacheLookup cache method cacheKey with
  | some e => (⟨e.status, e.body⟩, cache)
  | none =>
    match runAttempts upstream maxAttempts 1 none with
    | Sum.inr lastErr =>
        (⟨500, Json.obj [("error".toList,
            Json.str (lastErr.getD "No response from fetch attempts".toList))]⟩,
         cache)
    | Sum.inl st =>
        let parsed := jsonOfText parse st.2
        let cache2 :=
          if shouldCacheB method cacheKey then
            match cacheKey with
            | some k => setCache cache k ⟨st.1, parsed⟩
            | none => cache
          else cache
        (⟨st.1, parsed⟩, cache2)

/-- Default of `Number(process.env.FETCH_RETRIES || 2)` (line 141). -/
def defaultFetchRetries : Nat := 2

/-- Characters `URLSearchParams.toString` leaves unescaped
(`application/x-www-form-urlencoded`): `A–Z a–z 0–9 * - . _`. -/
def formUnreserved (c : Char) : Bool :=
  (65 ≤ c.toNat && c.toNat ≤ 90) || (97 ≤ c.toNat && c.toNat ≤ 122) ||
  (48 ≤ c.toNat && c.toNat ≤ 57) ||
  c == '*' || c == '-' || c == '.' || c == '_'

/-- Form-urlencoding of one character: space becomes `+`, unreserved
characters stay, everything else is percent-encoded through UTF-8. -/
def formEncodeChar (c : Char) : JStr :=
  if c == ' ' then ['+']
  else if formUnreserved c then [c]
  else (utf8Bytes c).flatMap pctByte

/-- Form-urlencoding of a string, as `URLSearchParams` applies it to each
appended key and value. -/
def formEncode (s : JStr) : JStr := s.flatMap formEncodeChar

/-- Function `qsFrom` from `server.js` (lines 103–110): append `k=req.query[k]` for
each allowed key that is present, serialize, and prefix `?` when
non-empty. `query` models `req.query` as a map from key to optional value. -/
def qsFrom (query : JStr → Option JStr) (allowed : List JStr) : JStr :=
  let pairs := allowed.filterMap (fun k => (query k).map (fun v => (k, v)))
  let s := List.intercalate ['&']
    (pairs.map (fun p => formEncode p.1 ++ ['='] ++ formEncode p.2))
  if s = [] then [] else '?' :: s

/-! ### Lemmas about the tag normalizer -/

theorem jsStartsWith_append (p s : JStr) : jsStartsWith (p ++ s) p = true := by
  induction p with
  | nil => cases s <;> rfl
  | cons c p ih => simp [jsStartsWith, ih]

theorem jsStartsWith_ne_nil {r p : JStr} (hp : p ≠ [])
    (h : jsStartsWith r p = true) : r ≠ [] := by
  cases r with
  | nil => cases p with
    | nil => exact absurd rfl hp
    | cons c p => simp [jsStartsWith] at h
  | cons c r => exact List.cons_ne_nil c r

theorem encodeURIComponent_cons (c : Char) (s : JStr) :
    encodeURIComponent (c :: s) = encodeURIComponentChar c ++ encodeURIComponent s := by
  simp [encodeURIComponent]

theorem encodeURIComponent_hash_cons (s : JStr) :
    encodeURIComponent ('#' :: s) = pct23 ++ encodeURIComponent s := by
  rw [encodeURIComponent_cons]
  rfl

theorem encodeURIComponent_unreserved {s : JStr}
    (h : ∀ c ∈ s, uriUnreserved c = true) : encodeURIComponent s = s := by
  induction s with
  | nil => rfl
  | cons c t ih =>
    rw [encodeURIComponent_cons, encodeURIComponentChar, if_pos (h c (by simp)),
      ih (fun d hd => h d (by simp [hd]))]
    rfl

/-- A string already starting with `"%23"` comes back from `encodeTag`
verbatim. -/
theorem encodeTag_of_pct23 {r : JStr} (h : jsStartsWith r pct23 = true) :
    encodeTag r = r := by
  rw [encodeTag, if_neg (jsStartsWith_ne_nil (by simp [pct23]) h), if_pos h]

/-- The output of `encodeTag` on a non-empty input starts with `"%23"`. -/
theorem encodeTag_marker {raw : JStr} (hne : raw ≠ []) :
    jsStartsWith (encodeTag raw) pct23 = true := by
  rw [encodeTag, if_neg hne]
  by_cases h23 : jsStartsWith raw pct23 = true
  · rw [if_pos h23]; exact h23
  · rw [if_neg h23]
    by_cases hh : jsStartsWith raw ['#'] = true
    · cases raw with
      | nil => exact absurd rfl hne
      | cons c t =>
        have hc : c = '#' := by simpa [jsStartsWith] using hh
        subst hc
        simp only [if_pos hh, encodeURIComponent_hash_cons]
        exact jsStartsWith_append pct23 _
    · simp only [if_neg hh, encodeURIComponent_hash_cons]
      exact jsStartsWith_append pct23 _

theorem uriUnreserved_ne_percent {c : Char} (h : uriUnreserved c = true) :
    c ≠ '%' := by
  intro hc; subst hc; simp [uriUnreserved] at h

theorem uriUnreserved_ne_hash {c : Char} (h : uriUnreserved c = true) :
    c ≠ '#' := by
  intro hc; subst hc; simp [uriUnreserved] at h

/-! ### Claims about the tag normalizer -/

/-- C6: `encodeTag` is idempotent — re-normalizing an already-normalized
tag is a no-op, for every input string (in particular every valid
identifier). -/
theorem encodeTag_idempotent (raw : JStr) :
    encodeTag (encodeTag raw) = encodeTag raw := by
  by_cases hne : raw = []
  · subst hne; rfl
  · exact encodeTag_of_pct23 (encodeTag_marker hne)

/-- C9: `encodeTag` maps the empty (falsy) input to the empty string, and
the output on every non-empty input begins with the percent-encoded
marker `"%23"`. -/
theorem encodeTag_empty_and_marker :
    encodeTag [] = [] ∧
    ∀ raw : JStr, raw ≠ [] → jsStartsWith (encodeTag raw) pct23 = true :=
  ⟨rfl, fun _ hne => encodeTag_marker hne⟩

/-- Witness for C9 at the input `"a"`. -/
theorem encodeTag_empty_and_marker_witness :
    jsStartsWith (encodeTag ['a']) pct23 = true :=
  encodeTag_empty_and_marker.2 ['a'] (by decide)

/-- C3, counterexample: the normalizer does not uppercase, so the
lower-case variant `"abc123"` and the upper-case variant `"#ABC123"` yield
different outputs, against the claimed case invariance. -/
theorem encodeTag_case_sensitive_cex :
    encodeTag "abc123".toList ≠ encodeTag "#ABC123".toList ∧
    encodeTag "abc123".toList = "%23abc123".toList ∧
    encodeTag "#ABC123".toList = "%23ABC123".toList := by
  refine ⟨by decide, by decide, by decide⟩

/-- C3 as amended: the normalizer maps the prefix variants of one
identifier — bare, `#`-prefixed, and `%23`-prefixed — to the same
canonical encoded output (for identifiers made of characters the encoder
keeps verbatim), but it does not change case, so case variants of an
identifier map to distinct outputs. -/
theorem encodeTag_prefix_invariance (s : JStr) (hne : s ≠ [])
    (hu : ∀ c ∈ s, uriUnreserved c = true) :
    encodeTag s = pct23 ++ s ∧
    encodeTag ('#' :: s) = pct23 ++ s ∧
    encodeTag (pct23 ++ s) = pct23 ++ s := by
  obtain ⟨c, t, rfl⟩ : ∃ c t, s = c :: t := by
    cases s with
    | nil => exact absurd rfl hne
    | cons c t => exact ⟨c, t, rfl⟩
  have hc := hu c (by simp)
  have hc1 : decide (c = '%') = false := by
    simpa using uriUnreserved_ne_percent hc
  have hc2 : decide (c = '#') = false := by
    simpa using uriUnreserved_ne_hash hc
  have henc : encodeURIComponent (c :: t) = c :: t :=
    encodeURIComponent_unreserved hu
  refine ⟨?_, ?_, ?_⟩
  · rw [encodeTag, if_neg hne,
      if_neg (by simp [jsStartsWith, pct23, hc1]),
      if_neg (by simp [jsStartsWith, hc2])]
    simp only [encodeURIComponent_hash_cons, henc]
  · rw [encodeTag, if_neg (List.cons_ne_nil _ _),
      if_neg (by simp [jsStartsWith, pct23]),
      if_pos (by simp [jsStartsWith])]
    simp only [encodeURIComponent_hash_cons, henc]
  · exact encodeTag_of_pct23 (jsStartsWith_append pct23 _)

/-- Witness for the amended C3 at the identifier `"ABC123"`. -/
theorem encodeTag_prefix_invariance_witness :
    encodeTag "ABC123".toList = "%23ABC123".toList ∧
    encodeTag "#ABC123".toList = "%23ABC123".toList ∧
    encodeTag "%23ABC123".toList = "%23ABC123".toList :=
  encodeTag_prefix_invariance "ABC123".toList (by decide) (by decide)

/-! ### Lemmas about the resolver -/

/-- If attempts `a, …, N-1` are transport failures and attempt `N` yields a
response, the loop stops at attempt `N` with that response, whatever its
HTTP status. -/
theorem runAttempts_success (up : Nat → AttemptResult) (N s : Nat) (t : JStr)
    (hN : up N = .success s t) :
    ∀ (rem a : Nat) (le : Option JStr), a ≤ N → N < a + rem →
      (∀ i, a ≤ i → i < N → ∃ m, up i = .failure m) →
      runAttempts up rem a le = Sum.inl (s, t) := by
  intro rem
  induction rem with
  | zero => intro a le ha hlt _; omega
  | succ rem ih =>
    intro a le ha hlt hfail
    by_cases hEq : a = N
    · subst hEq
      simp [runAttempts, hN]
    · obtain ⟨m, hm⟩ := hfail a le_rfl (lt_of_le_of_ne ha hEq)
      rw [runAttempts, hm]
      exact ih (a + 1) (some m) (by omega) (by omega)
        (fun i h1 h2 => hfail i (by omega) h2)

/-- If every attempt is a transport failure, the loop exhausts its budget
and reports the last error. -/
theorem runAttempts_all_fail (up : Nat → AttemptResult) (msg : Nat → JStr)
    (h : ∀ i, up i = .failure (msg i)) :
    ∀ (rem a : Nat) (le : Option JStr), ∃ e, runAttempts up rem a le = Sum.inr e := by
  intro rem
  induction rem with
  | zero => exact fun a le => ⟨le, rfl⟩
  | succ rem ih =>
    intro a le
    rw [runAttempts, h a]
    exact ih (a + 1) (some (msg a))

/-- A freshly written entry is what `getCache` finds. -/
theorem getCache_setCache_self (cache : Cache) (k : JStr) (v : CacheEntry)
    (hk : k ≠ []) : getCache (setCache cache k v) k = some v := by
  simp [getCache, setCache, hk, List.find?]

/-- For a GET with a non-empty cache key, the cache consultation is a
plain lookup. -/
theorem cacheLookup_GET (cache : Cache) (k : JStr) (hk : k ≠ []) :
    cacheLookup cache Method.GET (some k) = getCache cache k := by
  have : k.isEmpty = false := by cases k with
    | nil => exact absurd rfl hk
    | cons c t => rfl
  simp [cacheLookup, shouldCacheB, this]

/-- On a cache hit, `cocFetch` replays the cached status and body and
leaves the cache unchanged. -/
theorem cocFetch_hit (parse : JStr → Option Json) (up : Nat → AttemptResult)
    (maxA : Nat) (method : Method) (cacheKey : Option JStr) (cache : Cache)
    (e : CacheEntry) (hhit : cacheLookup cache method cacheKey = some e) :
    cocFetch parse up maxA method cacheKey cache = (⟨e.status, e.body⟩, cache) := by
  rw [cocFetch, hhit]

/-- On a cache miss with a response from the retry loop, `cocFetch`
forwards the status of the response and its parsed body to the client. -/
theorem cocFetch_fst_of_response (parse : JStr → Option Json)
    (up : Nat → AttemptResult) (maxA : Nat) (method : Method)
    (cacheKey : Option JStr) (cache : Cache) (s : Nat) (t : JStr)
    (hmiss : cacheLookup cache method cacheKey = none)
    (hrun : runAttempts up maxA 1 none = Sum.inl (s, t)) :
    (cocFetch parse up maxA method cacheKey cache).1 = ⟨s, jsonOfText parse t⟩ := by
  rw [cocFetch, hmiss, hrun]

/-- On a GET cache miss with a response from the retry loop, `cocFetch`
writes the response — whatever its status — through into the cache. -/
theorem cocFetch_snd_of_response_GET (parse : JStr → Option Json)
    (up : Nat → AttemptResult) (maxA : Nat) (k : JStr) (cache : Cache)
    (s : Nat) (t : JStr) (hk : k ≠ [])
    (hmiss : getCache cache k = none)
    (hrun : runAttempts up maxA 1 none = Sum.inl (s, t)) :
    (cocFetch parse up maxA Method.GET (some k) cache).2 =
      setCache cache k ⟨s, jsonOfText parse t⟩ := by
  have hke : k.isEmpty = false := by
    cases k with
    | nil => exact absurd rfl hk
    | cons c t => rfl
  have hsc : shouldCacheB Method.GET (some k) = true := by
    simp [shouldCacheB, hke]
  rw [cocFetch, cacheLookup_GET cache k hk, hmiss, hrun]
  simp [hsc]

/-- On a cache miss with the retry budget exhausted, `cocFetch` answers
`500 { error: message }` and leaves the cache unchanged. -/
theorem cocFetch_of_exhausted (parse : JStr → Option Json)
    (up : Nat → AttemptResult) (maxA : Nat) (method : Method)
    (cacheKey : Option JStr) (cache : Cache) (e : Option JStr)
    (hmiss : cacheLookup cache method cacheKey = none)
    (hrun : runAttempts up maxA 1 none = Sum.inr e) :
    cocFetch parse up maxA method cacheKey cache =
      (⟨500, Json.obj [("error".toList,
          Json.str (e.getD "No response from fetch attempts".toList))]⟩,
       cache) := by
  rw [cocFetch, hmiss, hrun]

/-! ### Claims about the resolver -/

/-- C1, counterexample: a forwarded GET carrying a cache key whose
upstream answer is `403 {}` *does* populate the cache — the written entry
replays status 403 — refuting the claim that non-2xx outcomes are never
stored. -/
theorem cocFetch_caches_error_cex :
    getCache
      (cocFetch (fun _ => some (Json.obj []))
        (fun _ => .success 403 "\x7b\x7d".toList)
        defaultFetchRetries Method.GET (some "clan:%23A".toList) []).2
      "clan:%23A".toList = some ⟨403, Json.obj []⟩ := rfl

/-- C1 as amended: on a GET cache miss with a (non-empty) cache key,
`cocFetch` writes the upstream response into the cache whatever its
status — there is no 2xx check in the source — so a subsequent identical
request is served from the cache (for any later upstream behaviour)
rather than re-hitting the upstream, even when the stored status is an
error. -/
theorem cocFetch_caches_all_statuses (parse : JStr → Option Json)
    (up : Nat → AttemptResult) (maxA : Nat) (k : JStr) (cache : Cache)
    (s : Nat) (t : JStr) (hk : k ≠ [])
    (hmiss : getCache cache k = none)
    (hrun : runAttempts up maxA 1 none = Sum.inl (s, t)) :
    (cocFetch parse up maxA Method.GET (some k) cache).2 =
      setCache cache k ⟨s, jsonOfText parse t⟩ ∧
    ∀ (parse2 : JStr → Option Json) (up2 : Nat → AttemptResult) (maxA2 : Nat),
      (cocFetch parse2 up2 maxA2 Method.GET (some k)
        (cocFetch parse up maxA Method.GET (some k) cache).2).1 =
        ⟨s, jsonOfText parse t⟩ := by
  have hwrite := cocFetch_snd_of_response_GET parse up maxA k cache s t hk hmiss hrun
  refine ⟨hwrite, fun parse2 up2 maxA2 => ?_⟩
  have hhit : cacheLookup (cocFetch parse up maxA Method.GET (some k) cache).2
      Method.GET (some k) = some ⟨s, jsonOfText parse t⟩ := by
    rw [cacheLookup_GET _ k hk, hwrite, getCache_setCache_self _ k _ hk]
  rw [cocFetch_hit parse2 up2 maxA2 Method.GET (some k) _ _ hhit]

/-- Witness for the amended C1: upstream answers `403 {}`; the entry is
written and a second identical request is answered `403 {}` from the
cache, for an upstream that would now fail. -/
theorem cocFetch_caches_all_statuses_witness :
    (cocFetch (fun _ => some (Json.obj []))
        (fun _ => .success 403 "\x7b\x7d".toList)
        defaultFetchRetries Method.GET (some "player:%23B".toList) []).2 =
      setCache [] "player:%23B".toList ⟨403, Json.obj []⟩ ∧
    (cocFetch (fun _ => none) (fun _ => .failure "down".toList)
        defaultFetchRetries Method.GET (some "player:%23B".toList)
        (cocFetch (fun _ => some (Json.obj []))
          (fun _ => .success 403 "\x7b\x7d".toList)
          defaultFetchRetries Method.GET (some "player:%23B".toList) []).2).1 =
      ⟨403, Json.obj []⟩ :=
  ⟨(cocFetch_caches_all_statuses (fun _ => some (Json.obj []))
      (fun _ => .success 403 "\x7b\x7d".toList) defaultFetchRetries
      "player:%23B".toList [] 403 "\x7b\x7d".toList (by decide) rfl rfl).1,
   (cocFetch_caches_all_statuses (fun _ => some (Json.obj []))
      (fun _ => .success 403 "\x7b\x7d".toList) defaultFetchRetries
      "player:%23B".toList [] 403 "\x7b\x7d".toList (by decide) rfl rfl).2
     (fun _ => none) (fun _ => .failure "down".toList) defaultFetchRetries⟩

/-- C2, counterexample: when the upstream never responds (every attempt is
a transport failure, as a timeout abort is), the resolver answers 500, not
the claimed 504. -/
theorem cocFetch_timeout_maps_to_500_cex :
    (cocFetch (fun _ => none)
      (fun _ => .failure "The operation was aborted".toList)
      defaultFetchRetries Method.GET none []).1.status = 500 ∧
    (cocFetch (fun _ => none)
      (fun _ => .failure "The operation was aborted".toList)
      defaultFetchRetries Method.GET none []).1.status ≠ 504 :=
  ⟨rfl, by decide⟩

/-- C2 as amended: when every attempt fails at the transport level
(timeouts included) and the cache does not answer, the resolver returns
client status 500 with an `{ error: message }` body — the code has no 504
mapping — and the cache is unchanged. -/
theorem cocFetch_exhausted_returns_500 (parse : JStr → Option Json)
    (up : Nat → AttemptResult) (msg : Nat → JStr) (maxA : Nat)
    (method : Method) (cacheKey : Option JStr) (cache : Cache)
    (hmiss : cacheLookup cache method cacheKey = none)
    (hfail : ∀ i, up i = .failure (msg i)) :
    (∃ m, (cocFetch parse up maxA method cacheKey cache).1 =
      ⟨500, Json.obj [("error".toList, Json.str m)]⟩) ∧
    (cocFetch parse up maxA method cacheKey cache).2 = cache := by
  obtain ⟨e, he⟩ := runAttempts_all_fail up msg hfail maxA 1 none
  rw [cocFetch_of_exhausted parse up maxA method cacheKey cache e hmiss he]
  exact ⟨⟨_, rfl⟩, rfl⟩

/-- Witness for the amended C2 with both default attempts timing out. -/
theorem cocFetch_exhausted_returns_500_witness :
    (∃ m, (cocFetch (fun _ => none) (fun _ => .failure "aborted".toList)
      defaultFetchRetries Method.GET none []).1 =
        ⟨500, Json.obj [("error".toList, Json.str m)]⟩) ∧
    (cocFetch (fun _ => none) (fun _ => .failure "aborted".toList)
      defaultFetchRetries Method.GET none []).2 = ([] : Cache) :=
  cocFetch_exhausted_returns_500 (fun _ => none) _ (fun _ => "aborted".toList)
    defaultFetchRetries Method.GET none [] rfl (fun _ => rfl)

/-- C4: on a cache miss, whatever status the upstream responds with — in
particular every non-2xx status — `cocFetch` relays that status and the
parsed upstream body to the client verbatim. -/
theorem cocFetch_faithful_forwarding (parse : JStr → Option Json)
    (up : Nat → AttemptResult) (maxA : Nat) (method : Method)
    (cacheKey : Option JStr) (cache : Cache) (s : Nat) (t : JStr)
    (hmiss : cacheLookup cache method cacheKey = none)
    (hrun : runAttempts up maxA 1 none = Sum.inl (s, t)) :
    (cocFetch parse up maxA method cacheKey cache).1 = ⟨s, jsonOfText parse t⟩ :=
  cocFetch_fst_of_response parse up maxA method cacheKey cache s t hmiss hrun

/-- Witness for C4, the stub from the spec: the upstream answers 403 with the
JSON body `\x7b"reason":"accessDenied"\x7d`; the client sees status 403
with that body. -/
theorem cocFetch_faithful_forwarding_witness :
    (cocFetch
      (fun t => if t = "\x7b\"reason\":\"accessDenied\"\x7d".toList
        then some (Json.obj [("reason".toList, Json.str "accessDenied".toList)])
        else none)
      (fun _ => .success 403 "\x7b\"reason\":\"accessDenied\"\x7d".toList)
      defaultFetchRetries Method.GET none []).1 =
    ⟨403, Json.obj [("reason".toList, Json.str "accessDenied".toList)]⟩ :=
  cocFetch_faithful_forwarding
    (fun t => if t = "\x7b\"reason\":\"accessDenied\"\x7d".toList
      then some (Json.obj [("reason".toList, Json.str "accessDenied".toList)])
      else none)
    (fun _ => .success 403 "\x7b\"reason\":\"accessDenied\"\x7d".toList)
    defaultFetchRetries Method.GET none [] 403
    "\x7b\"reason\":\"accessDenied\"\x7d".toList rfl rfl

/-- C5: the retry behaviour of `cocFetch` on a cache miss. First conjunct:
if attempts `1 … N-1` fail at the transport level and attempt
`N ≤ maxAttempts` yields a response, the client receives that response.
Second conjunct: if every attempt fails at the transport level, the client
receives status 500 (the transport-failure outcome) and the cache is
untouched — the loop makes at most `maxAttempts` attempts. Third conjunct:
a response on the first attempt ends the loop whatever its HTTP status, so
HTTP-level 4xx/5xx responses are never retried. -/
theorem cocFetch_retry_bound :
    (∀ (parse : JStr → Option Json) (up : Nat → AttemptResult)
       (maxA : Nat) (method : Method) (cacheKey : Option JStr) (cache : Cache)
       (N s : Nat) (t : JStr) (msg : Nat → JStr),
      cacheLookup cache method cacheKey = none →
      1 ≤ N → N ≤ maxA →
      (∀ i, 1 ≤ i → i < N → up i = .failure (msg i)) →
      up N = .success s t →
      (cocFetch parse up maxA method cacheKey cache).1 = ⟨s, jsonOfText parse t⟩) ∧
    (∀ (parse : JStr → Option Json) (up : Nat → AttemptResult)
       (maxA : Nat) (method : Method) (cacheKey : Option JStr) (cache : Cache)
       (msg : Nat → JStr),
      cacheLookup cache method cacheKey = none →
      (∀ i, up i = .failure (msg i)) →
      (cocFetch parse up maxA method cacheKey cache).1.status = 500 ∧
      (cocFetch parse up maxA method cacheKey cache).2 = cache) ∧
    (∀ (parse : JStr → Option Json) (up : Nat → AttemptResult)
       (maxA : Nat) (method : Method) (cacheKey : Option JStr) (cache : Cache)
       (s : Nat) (t : JStr),
      cacheLookup cache method cacheKey = none →
      1 ≤ maxA → up 1 = .success s t →
      (cocFetch parse up maxA method cacheKey cache).1 = ⟨s, jsonOfText parse t⟩) := by
  refine ⟨?_, ?_, ?_⟩
  · intro parse up maxA method cacheKey cache N s t msg hmiss h1 hNA hfail hN
    exact cocFetch_fst_of_response parse up maxA method cacheKey cache s t hmiss
      (runAttempts_success up N s t hN maxA 1 none h1 (by omega)
        (fun i hi1 hi2 => ⟨msg i, hfail i hi1 hi2⟩))
  · intro parse up maxA method cacheKey cache msg hmiss hfail
    obtain ⟨e, he⟩ := runAttempts_all_fail up msg hfail maxA 1 none
    rw [cocFetch_of_exhausted parse up maxA method cacheKey cache e hmiss he]
    exact ⟨rfl, rfl⟩
  · intro parse up maxA method cacheKey cache s t hmiss hA h1
    exact cocFetch_fst_of_response parse up maxA method cacheKey cache s t hmiss
      (runAttempts_success up 1 s t h1 maxA 1 none le_rfl (by omega)
        (fun i hi1 hi2 => absurd (lt_of_le_of_lt hi1 hi2) (lt_irrefl 1)))

/-- Witness for C5 at the default attempt budget of 2: a failure then a
200 gives the 200; two failures give a 500 with the cache untouched; an
immediate 500-status HTTP response is forwarded without a retry. -/
theorem cocFetch_retry_bound_witness :
    (cocFetch (fun _ => none)
      (fun i => if i = 1 then .failure "ECONNRESET".toList
                else .success 200 "ok".toList)
      defaultFetchRetries Method.GET none []).1 =
      ⟨200, Json.obj [("raw".toList, Json.str "ok".toList)]⟩ ∧
    ((cocFetch (fun _ => none) (fun _ => .failure "ECONNRESET".toList)
      defaultFetchRetries Method.GET none []).1.status = 500 ∧
     (cocFetch (fun _ => none) (fun _ => .failure "ECONNRESET".toList)
      defaultFetchRetries Method.GET none []).2 = ([] : Cache)) ∧
    (cocFetch (fun _ => none) (fun _ => .success 500 "oops".toList)
      defaultFetchRetries Method.GET none []).1 =
      ⟨500, Json.obj [("raw".toList, Json.str "oops".toList)]⟩ :=
  ⟨cocFetch_retry_bound.1 (fun _ => none)
      (fun i => if i = 1 then .failure "ECONNRESET".toList
                else .success 200 "ok".toList)
      defaultFetchRetries Method.GET none [] 2 200 "ok".toList
      (fun _ => "ECONNRESET".toList) rfl (by decide) (by decide)
      (by intro i h1 h2
          have : i = 1 := by omega
          subst this
          rfl)
      rfl,
   cocFetch_retry_bound.2.1 (fun _ => none)
      (fun _ => .failure "ECONNRESET".toList) defaultFetchRetries Method.GET
      none [] (fun _ => "ECONNRESET".toList) rfl (fun _ => rfl),
   cocFetch_retry_bound.2.2 (fun _ => none)
      (fun _ => .success 500 "oops".toList) defaultFetchRetries Method.GET
      none [] 500 "oops".toList rfl (by decide) rfl⟩

/-- C7, counterexample: the empty upstream body is not valid JSON
(`JSON.parse("")` throws, here `parse` answers `none` on every text), yet
the resolver forwards `\x7b\x7d`, not `\x7b raw: "" \x7d`, with the
upstream status. -/
theorem cocFetch_empty_body_cex :
    (cocFetch (fun _ => none) (fun _ => .success 403 [])
      defaultFetchRetries Method.GET none []).1.status = 403 ∧
    (cocFetch (fun _ => none) (fun _ => .success 403 [])
      defaultFetchRetries Method.GET none []).1.body = Json.obj [] ∧
    Json.obj [] ≠ Json.obj [("raw".toList, Json.str [])] := by
  refine ⟨rfl, rfl, ?_⟩
  intro h
  injection h with h2
  simp at h2

/-- C7 as amended: on a cache miss, a *non-empty* upstream body that fails
to parse as JSON does not fail the call — the resolver forwards
`\x7b raw: text \x7d` with the original upstream status — while an empty
body is forwarded as `\x7b\x7d` with the original status. -/
theorem cocFetch_parse_failure_raw (parse : JStr → Option Json)
    (up : Nat → AttemptResult) (maxA : Nat) (method : Method)
    (cacheKey : Option JStr) (cache : Cache) (s : Nat)
    (hmiss : cacheLookup cache method cacheKey = none) :
    (∀ t, runAttempts up maxA 1 none = Sum.inl (s, t) → t ≠ [] →
      parse t = none →
      (cocFetch parse up maxA method cacheKey cache).1 =
        ⟨s, Json.obj [("raw".toList, Json.str t)]⟩) ∧
    (runAttempts up maxA 1 none = Sum.inl (s, []) →
      (cocFetch parse up maxA method cacheKey cache).1 = ⟨s, Json.obj []⟩) := by
  constructor
  · intro t hrun ht hp
    rw [cocFetch_fst_of_response parse up maxA method cacheKey cache s t hmiss hrun,
      jsonOfText, if_neg ht, hp]
  · intro hrun
    rw [cocFetch_fst_of_response parse up maxA method cacheKey cache s [] hmiss hrun]
    rfl

/-- Witness for the amended C7: upstream answers `502 "Bad Gateway"` (not
JSON); the client sees `502 \x7b raw: "Bad Gateway" \x7d`; and an empty
body comes back as `\x7b\x7d` with its status. -/
theorem cocFetch_parse_failure_raw_witness :
    (cocFetch (fun _ => none) (fun _ => .success 502 "Bad Gateway".toList)
      defaultFetchRetries Method.GET none []).1 =
      ⟨502, Json.obj [("raw".toList, Json.str "Bad Gateway".toList)]⟩ ∧
    (cocFetch (fun _ => none) (fun _ => .success 204 [])
      defaultFetchRetries Method.GET none []).1 = ⟨204, Json.obj []⟩ :=
  ⟨(cocFetch_parse_failure_raw (fun _ => none)
      (fun _ => .success 502 "Bad Gateway".toList) defaultFetchRetries
      Method.GET none [] 502 rfl).1 "Bad Gateway".toList rfl (by decide) rfl,
   (cocFetch_parse_failure_raw (fun _ => none)
      (fun _ => .success 204 []) defaultFetchRetries
      Method.GET none [] 204 rfl).2 rfl⟩

/-- C8: `cocFetch` on a POST — even with a cache key supplied — neither
writes to the cache (the final cache equals the initial one) nor reads
from it (the client response is the same whatever the initial cache). -/
theorem cocFetch_post_no_cache (parse : JStr → Option Json)
    (up : Nat → AttemptResult) (maxA : Nat) (cacheKey : Option JStr)
    (c1 c2 : Cache) :
    (cocFetch parse up maxA Method.POST cacheKey c1).2 = c1 ∧
    (cocFetch parse up maxA Method.POST cacheKey c1).1 =
      (cocFetch parse up maxA Method.POST cacheKey c2).1 := by
  have hsc : shouldCacheB Method.POST cacheKey = false := rfl
  have hml : ∀ c : Cache, cacheLookup c Method.POST cacheKey = none := by
    intro c
    simp [cacheLookup, hsc]
  rcases hr : runAttempts up maxA 1 none with st | e
  · constructor
    · rw [cocFetch, hml c1, hr]
      simp [hsc]
    · rw [cocFetch, hml c1, hr, cocFetch, hml c2, hr]
  · constructor
    · rw [cocFetch_of_exhausted parse up maxA Method.POST cacheKey c1 e (hml c1) hr]
    · rw [cocFetch_of_exhausted parse up maxA Method.POST cacheKey c1 e (hml c1) hr,
        cocFetch_of_exhausted parse up maxA Method.POST cacheKey c2 e (hml c2) hr]

/-! ### Claim about the query-string builder -/

/-- Congruence of the allowed-key filtering step of `qsFrom`. -/
theorem filterMap_query_congr (q1 q2 : JStr → Option JStr) :
    ∀ allowed : List JStr, (∀ k ∈ allowed, q1 k = q2 k) →
      allowed.filterMap (fun k => (q1 k).map (fun v => (k, v))) =
        allowed.filterMap (fun k => (q2 k).map (fun v => (k, v))) := by
  intro allowed
  induction allowed with
  | nil => intro _; rfl
  | cons k ks ih =>
    intro h
    simp only [List.filterMap_cons, h k (by simp),
      ih (fun x hx => h x (by simp [hx]))]

/-- C10: the query string built by `qsFrom` depends only on the values of
the allowed keys — two requests agreeing on every allowed key produce the
same string, so parameters outside the allowlist never reach the upstream
URL. -/
theorem qsFrom_depends_only_on_allowed (allowed : List JStr)
    (q1 q2 : JStr → Option JStr) (h : ∀ k ∈ allowed, q1 k = q2 k) :
    qsFrom q1 allowed = qsFrom q2 allowed := by
  rw [qsFrom, qsFrom, filterMap_query_congr q1 q2 allowed h]

/-- Witness for C10: two requests agreeing on the allowed key `name` but
differing wildly elsewhere produce the same query string. -/
theorem qsFrom_depends_only_on_allowed_witness :
    qsFrom (fun k => if k = "name".toList then some "a b".toList
                     else some "smuggled".toList) ["name".toList] =
    qsFrom (fun k => if k = "name".toList then some "a b".toList else none)
      ["name".toList] :=
  qsFrom_depends_only_on_allowed ["name".toList]
    (fun k => if k = "name".toList then some "a b".toList
              else some "smuggled".toList)
    (fun k => if k = "name".toList then some "a b".toList else none)
    (by decide)

end CoC
